import Mathlib

/-!
# Verification of the traffic-control-tower streaming pipeline

Shallow embedding of the core of the `traffic-control-tower` repository:
the road-graph loader (`crates/common/src/map.rs`), the simulation systems
(`crates/traffic-sim/src/systems/movement.rs`,
`crates/traffic-sim/src/systems/broadcast.rs`, `crates/traffic-sim/src/main.rs`),
the ingest consumer (`crates/traffic-ingest/src/main.rs`,
`crates/traffic-ingest/src/batch.rs`) and the API server
(`crates/traffic-api/src/main.rs`).

Numeric conventions: the Rust code computes with `f64`/`f32`.  The embedding
uses `ℚ` for the simulation state (the operations involved are `+`, `*`,
comparisons — exact in the claims considered) and `ℝ` for the geometric
interpolation, whose segment lengths use a square root.  Where a claim turns
on IEEE-754 division by zero, the embedding makes the special values explicit
(`RVal` below) instead of silently using Lean's `x / 0 = 0` convention.
-/

namespace Traffic

/-- A coordinate pair `(lon, lat)` (glam `DVec2`: `x = lon`, `y = lat`). -/
abbrev Coord : Type := ℚ × ℚ

/-- `Road` from `crates/common/src/map.rs`: one directed edge of the road
graph.  Field `end` of the Rust struct is rendered `endNode` (`end` is a
Lean keyword). -/
structure Road where
  id : Int
  start : Int
  endNode : Int
  length : ℚ
  geometry : List Coord
  highway_type : String
deriving Repr, DecidableEq

/-- A node of the road graph (`Node` in `map.rs`). -/
structure Node where
  id : Int
  pos : Coord
deriving Repr, DecidableEq

/-- `RoadGraph` from `map.rs`.  The Rust `HashMap<i64, Vec<usize>>` for
`out_edges` is modelled as a total function defaulting to `[]`: in
`movement_system` both an absent key and an empty vector lead to the same
clamping branch, and the builder only ever appends to entries. -/
structure RoadGraph where
  nodes : Int → Option Node
  edges : List Road
  out_edges : Int → List Nat

/-- `is_drivable` from `crates/common/src/map.rs`. -/
def is_drivable (highway_type : String) : Bool :=
  highway_type = "motorway" || highway_type = "trunk" || highway_type = "primary" ||
  highway_type = "secondary" || highway_type = "tertiary" || highway_type = "residential" ||
  highway_type = "service" || highway_type = "living_street"

/-- Helper for `buildOutEdges`: the loop
`for (index, road) in graph.edges.iter().enumerate()
   { out_edges.entry(road.start).or_default().push(index); }`
starting at index `i` with accumulator `m`. -/
def buildOutEdgesAux (i : Nat) (roads : List Road) (m : Int → List Nat) : Int → List Nat :=
  match roads with
  | [] => m
  | r :: rest =>
      buildOutEdgesAux (i + 1) rest (fun v => if v = r.start then m v ++ [i] else m v)

/-- The adjacency-list construction of `RoadGraph::load_from_pbf`
(`map.rs`, both in `common` and `traffic-sim`): group edge indices by
`road.start`, in edge order. -/
def buildOutEdges (roads : List Road) : Int → List Nat :=
  buildOutEdgesAux 0 roads (fun _ => [])

/-- `GraphPosition` component (`crates/traffic-sim/src/components.rs`). -/
structure GraphPosition where
  edge_index : Nat
  distance : ℚ
deriving Repr, DecidableEq

/-- Loop body of `movement_system`
(`crates/traffic-sim/src/systems/movement.rs`, lines 34–59) for one vehicle.
`choice` is the value drawn by `rand::random::<usize>()`; the Rust code picks
`next_edges[choice % next_edges.len()]`, rendered with `getD` (the default is
never used since `choice % len < len`).  A vehicle whose `edge_index` is out
of bounds is left untouched (the `if let Some(road)` guard). -/
def movement_step (graph : RoadGraph) (choice : Nat)
    (gp : GraphPosition) (target_speed dt : ℚ) : GraphPosition :=
  match graph.edges.get? gp.edge_index with
  | none => gp
  | some road =>
      let d := gp.distance + target_speed * dt
      if d ≥ road.length then
        let next_edges := graph.out_edges road.endNode
        if next_edges ≠ [] then
          { edge_index := next_edges.getD (choice % next_edges.length) gp.edge_index,
            distance := 0 }
        else
          { gp with distance := road.length }
      else
        { gp with distance := d }

/-- `spawn_vehicles_on_graph` (`crates/traffic-sim/src/main.rs`, lines
104–145), one iteration: `edge_idx` is the drawn `rng.gen_range(0..edge_count)`;
a road with empty geometry is skipped (`continue`), otherwise the vehicle is
placed at `distance = 0` on that edge. -/
def spawn_vehicle (edges : List Road) (edge_idx : Nat) : Option GraphPosition :=
  match edges.get? edge_idx with
  | none => none
  | some road =>
      if road.geometry.isEmpty then none
      else some { edge_index := edge_idx, distance := 0 }

/-- The per-vehicle `0 ≤ distance ≤ edges[edge_index].length` invariant of
spec §8, including that `edge_index` is in bounds. -/
def PosInvariant (graph : RoadGraph) (gp : GraphPosition) : Prop :=
  ∃ road, graph.edges.get? gp.edge_index = some road ∧
    0 ≤ gp.distance ∧ gp.distance ≤ road.length

/-- Well-formedness of a road graph as established by the loader: every edge
length is non-negative (it is a haversine distance) and every index stored in
`out_edges` is a valid edge index. -/
def WellFormed (graph : RoadGraph) : Prop :=
  (∀ road ∈ graph.edges, 0 ≤ road.length) ∧
  (∀ v i, i ∈ graph.out_edges v → i < graph.edges.length)

/-! ## Road-graph loader: edge emission

`RoadGraph::load_from_pbf` reads a PBF file through `osmpbfreader`
(external); what is the repository's own logic is the second pass that turns
each `highway`-tagged way into per-segment edges.  The PBF contents are
abstracted as the node table and the list of ways; the haversine distance
(computed by the external `geo` crate) is abstracted as a parameter `dist`. -/

/-- An OSM way as the loader sees it: its id, the value of its `highway` tag
(if any), and its node-id list. -/
structure OsmWay where
  id : Int
  highway : Option String
  nodes : List Int
deriving Repr, DecidableEq

/-- `w.tags.get("highway").map(|s| s.as_str()).unwrap_or("")`. -/
def wayHighway (w : OsmWay) : String :=
  w.highway.getD ""

/-- Consecutive pairs: `w.nodes.windows(2)`. -/
def windows2 {α : Type} : List α → List (α × α)
  | [] => []
  | [_] => []
  | a :: b :: rest => (a, b) :: windows2 (b :: rest)

/-- The edges one way contributes in `load_from_pbf`
(`crates/common/src/map.rs`, lines 119–150): skip non-drivable ways, then for
each consecutive node pair whose two nodes are known emit one `Road` with
two-point geometry and haversine length. -/
def segmentsOfWay (nodeTable : Int → Option Node) (dist : Coord → Coord → ℚ)
    (w : OsmWay) : List Road :=
  if is_drivable (wayHighway w) then
    (windows2 w.nodes).filterMap (fun p =>
      match nodeTable p.1, nodeTable p.2 with
      | some n1, some n2 =>
          some { id := w.id, start := p.1, endNode := p.2,
                 length := dist n1.pos n2.pos,
                 geometry := [n1.pos, n2.pos],
                 highway_type := wayHighway w }
      | _, _ => none)
  else []

/-- All edges the loader emits, in way order (second pass of
`load_from_pbf`). -/
def loadEdges (nodeTable : Int → Option Node) (dist : Coord → Coord → ℚ)
    (ways : List OsmWay) : List Road :=
  (ways.map (segmentsOfWay nodeTable dist)).flatten

/-! ## Ingest core: batch writer (`crates/traffic-ingest/src/batch.rs`)

The database is modelled as the list of rows of `vehicle_positions` in insert
order; whether the transaction of one flush commits is an oracle `txOk`
(a failed `begin`, `execute` or `commit` all roll the transaction back and
surface as an error, leaving the rows absent). -/

/-- `VehiclePosition`, the wire record.  Modelled from the spec: the
message schema lives in `proto/telemetry.proto` (generated into
`traffic_common::proto` at build time, not under `src/`); spec §3 gives
`{ vehicle_id: string, latitude: f64, longitude: f64, speed: f64 (m/s),
timestamp: i64 }`. -/
structure VehiclePosition where
  vehicle_id : String
  latitude : ℚ
  longitude : ℚ
  speed : ℚ
  timestamp : Int
deriving Repr, DecidableEq

/-- State of a `BatchWriter` together with the cold store it writes to:
`buffer` is the in-memory `Vec<VehiclePosition>`, `db` the rows of
`vehicle_positions` in insert order (one row per buffered record, inserted in
buffer order, all in one transaction). -/
structure BatchState where
  buffer : List VehiclePosition
  db : List VehiclePosition
deriving Repr, DecidableEq

/-- `BatchWriter::flush_locked` (`batch.rs`, lines 34–63): empty buffer — no
transaction, `Ok`; otherwise insert every buffered row inside one
transaction and clear the buffer after commit; a failed transaction
(`txOk = false`) leaves buffer and database untouched and returns the error
(`false`). -/
def flush_locked (txOk : Bool) (st : BatchState) : BatchState × Bool :=
  if st.buffer.isEmpty then (st, true)
  else if txOk then ({ buffer := [], db := st.db ++ st.buffer }, true)
  else (st, false)

/-- `BatchWriter::add` (`batch.rs`, lines 22–31): push the record, then
flush exactly when the buffer length has reached `batch_size`. -/
def add (batch_size : Nat) (txOk : Bool) (st : BatchState)
    (position : VehiclePosition) : BatchState × Bool :=
  let st' : BatchState := { st with buffer := st.buffer ++ [position] }
  if batch_size ≤ st'.buffer.length then flush_locked txOk st'
  else (st', true)

/-- `BatchWriter::flush` (`batch.rs`, lines 66–69): the public forced flush,
which just runs `flush_locked` under the lock. -/
def flush (txOk : Bool) (st : BatchState) : BatchState × Bool :=
  flush_locked txOk st

/-! ## Ingest core: consumer loop (`crates/traffic-ingest/src/main.rs`)

One iteration of the `while let Some(msg_result) = stream.next().await` loop
(lines 142–155).  `decode` abstracts `VehiclePosition::decode` (prost,
generated code), `process` abstracts `IngestService::process` (its network
effects are irrelevant to the commit decision).  The result records whether
`process` ran (and its outcome) and whether `consumer.commit_message` was
called for this record. -/

/-- Result of one consumer-loop iteration: `processed` is `none` when
`process` never ran, otherwise its outcome; `committed` tells whether the
offset was committed for this record. -/
structure ConsumeOutcome where
  processed : Option Bool
  committed : Bool
deriving Repr, DecidableEq

/-- One iteration of the ingest consumer loop (`main.rs`, lines 142–155):
on a delivered record with payload `payload`, decode; on decode success run
`process` (an error is only logged) and then commit the offset
unconditionally; on decode failure fall through — no processing, no commit. -/
def consumeRecord (payload : Option (List Nat))
    (decode : List Nat → Option VehiclePosition)
    (process : VehiclePosition → Bool) : ConsumeOutcome :=
  match payload with
  | none => { processed := none, committed := false }
  | some bytes =>
      match decode bytes with
      | none => { processed := none, committed := false }
      | some pos => { processed := some (process pos), committed := true }

/-! ## Simulation core: broadcast (`crates/traffic-sim/src/systems/broadcast.rs`)

The `Position` and `Velocity` components are `glam::Vec2` (`x = lon`,
`y = lat`); they are embedded as real pairs.  The protobuf serialization of
the one message the system publishes is kept structural (`KafkaMessage` holds
the `TrafficUpdate` value itself); the claims checked concern the topic, the
key and the message granularity, not the byte encoding. -/

/-- `Vec2::length`: the Euclidean norm. -/
noncomputable def vecLength (v : ℝ × ℝ) : ℝ :=
  Real.sqrt (v.1 ^ 2 + v.2 ^ 2)

/-- `VehicleUpdate` message as used by `broadcast_system` (fields from
`proto/telemetry.proto` as populated in `broadcast.rs`, lines 33–40). -/
structure VehicleUpdate where
  vehicle_id : String
  latitude : ℝ
  longitude : ℝ
  speed : ℝ
  heading : ℝ

/-- `TrafficUpdate` batch message (`broadcast.rs`, lines 48–51). -/
structure TrafficUpdate where
  vehicles : List VehicleUpdate
  timestamp : Int

/-- One record handed to the Kafka producer: topic, partitioning key and the
message whose encoding is the payload. -/
structure KafkaMessage where
  topic : String
  key : String
  message : TrafficUpdate

/-- `broadcast_system` (`broadcast.rs`, lines 16–68): increment the counter;
on ticks where it is still `< 5` publish nothing; otherwise reset it, build
one `VehicleUpdate` per vehicle (`latitude = pos.y`, `longitude = pos.x`,
`speed = vel.length()`, `heading = 0`), and — unless there are no vehicles —
publish the single batched `TrafficUpdate` to topic `traffic.updates` with
key `berlin_center`.  `query` lists `(VehicleId, Position, Velocity)` in
iteration order; the result is the new counter and the at most one record
sent.  (`TrafficUpdate::encode` into a fresh `Vec` cannot fail; the
fire-and-forget send is outside the system's state.) -/
noncomputable def broadcast_system (counter : Nat)
    (query : List (String × (ℝ × ℝ) × (ℝ × ℝ))) : Nat × Option KafkaMessage :=
  let c := counter + 1
  if c < 5 then (c, none)
  else
    let updates := query.map (fun q =>
      { vehicle_id := q.1, latitude := q.2.1.2, longitude := q.2.1.1,
        speed := vecLength q.2.2, heading := 0 : VehicleUpdate })
    if updates.isEmpty then (0, none)
    else (0, some { topic := "traffic.updates", key := "berlin_center",
                    message := { vehicles := updates, timestamp := 0 } })

/-! ## Fan-out core: the `/map` endpoint (`crates/traffic-api/src/main.rs`) -/

/-- The API's `Road` DTO (`traffic-api/src/main.rs`, lines 24–30):
`{id: u64, geometry: Vec<[f64; 2]>}` with geometry entries `[lon, lat]`. -/
structure ApiRoad where
  id : Nat
  geometry : List (ℚ × ℚ)
deriving Repr, DecidableEq

/-- The `road.id as u64` cast: `i64 → u64` wraps modulo `2 ^ 64`. -/
def u64OfI64 (i : Int) : Nat :=
  (i % (2 ^ 64 : Int)).toNat

/-- The startup computation of `map_points`
(`traffic-api/src/main.rs`, lines 74–90): filter the graph's edges by the
inline drivable-class `matches!` and map each to its DTO. -/
def map_points (edges : List Road) : List ApiRoad :=
  (edges.filter (fun road =>
    road.highway_type = "motorway" || road.highway_type = "trunk" ||
    road.highway_type = "primary" || road.highway_type = "secondary" ||
    road.highway_type = "tertiary" || road.highway_type = "residential" ||
    road.highway_type = "service" || road.highway_type = "living_street")).map
    (fun road =>
      { id := u64OfI64 road.id,
        geometry := road.geometry.map (fun p => (p.1, p.2)) })

/-- `get_map` (`traffic-api/src/main.rs`, lines 150–153): returns the cached
`map_points` snapshot. -/
def get_map (cached_map_points : List ApiRoad) : List ApiRoad :=
  cached_map_points

/-! ## Simulation core: position synchronisation
(`crates/traffic-sim/src/systems/movement.rs`, lines 73–162)

Geometry here is over `ℝ`: the per-segment lengths are Euclidean norms
(`glam::DVec2::length`, a square root). -/

/-- The `segment_lengths` vector of `interpolate_along_polyline`
(`movement.rs`, lines 126–133): `(geometry[i + 1] - geometry[i]).length()`
for each consecutive pair. -/
noncomputable def segLengths : List (ℝ × ℝ) → List ℝ
  | p :: q :: rest => Real.sqrt ((q.1 - p.1) ^ 2 + (q.2 - p.2) ^ 2) :: segLengths (q :: rest)
  | _ => []

/-- The `for (i, &seg_len) in segment_lengths.iter().enumerate()` loop of
`interpolate_along_polyline` (`movement.rs`, lines 143–161): `pts` is the
suffix `geometry[i..]` aligned with the remaining segment lengths; the
fall-through past the loop returns the polyline's last point (the last
element of the running suffix). -/
noncomputable def interpGo (segs : List ℝ) (pts : List (ℝ × ℝ))
    (target_distance accumulated_distance : ℝ) : ℝ × ℝ :=
  match segs, pts with
  | seg_len :: srest, p :: q :: prest =>
      if accumulated_distance + seg_len ≥ target_distance then
        let segment_progress :=
          if seg_len > 0 then (target_distance - accumulated_distance) / seg_len else 0
        (p.1 + (q.1 - p.1) * segment_progress, p.2 + (q.2 - p.2) * segment_progress)
      else interpGo srest (q :: prest) target_distance (accumulated_distance + seg_len)
  | _, _ => pts.getLastD (0, 0)

/-- `interpolate_along_polyline` (`movement.rs`, lines 120–162).  On a
geometry with fewer than 2 points the Rust code indexes `geometry[0]`
(panicking on an empty slice); rendered with `headD`. -/
noncomputable def interpolate_along_polyline (geometry : List (ℝ × ℝ))
    (progress : ℝ) : ℝ × ℝ :=
  if geometry.length < 2 then geometry.headD (0, 0)
  else
    let segment_lengths := segLengths geometry
    let total_length := segment_lengths.sum
    if total_length = 0 then geometry.headD (0, 0)
    else interpGo segment_lengths geometry (progress * total_length) 0

/-- Loop body of `sync_position_system` (`movement.rs`, lines 77–97) for one
vehicle on a road with geometry `geometry` and length `length`: `none` means
the vehicle's `Position` is left unchanged (geometry shorter than 2 points).
`progress = (distance / length).clamp(0.0, 1.0)`; exactly 2 points take the
direct linear interpolation, more go through `interpolate_along_polyline`.
Caveat: over `ℝ`, `distance / 0 = 0` by Lean's convention, whereas `f64`
division by zero yields `±∞`/NaN — `syncTwoPointRust` below models the
two-point branch with those IEEE special values made explicit, which is the
only place the difference matters. -/
noncomputable def sync_position (geometry : List (ℝ × ℝ)) (length distance : ℝ) :
    Option (ℝ × ℝ) :=
  if geometry.length ≥ 2 then
    let progress := max 0 (min 1 (distance / length))
    match geometry with
    | p :: q :: rest =>
        if rest.isEmpty then
          some (p.1 + (q.1 - p.1) * progress, p.2 + (q.2 - p.2) * progress)
        else some (interpolate_along_polyline geometry progress)
    | _ => none
  else none

/-! ## IEEE special values for the `distance / length` computation

`f64` division by zero is total: `d / 0.0` is `+∞` for `d > 0`, `-∞` for
`d < 0` and NaN for `d = 0`, and `f64::clamp` maps `+∞ ↦ 1`, `-∞ ↦ 0` and
NaN ↦ NaN.  The two-point branch of `sync_position_system` is re-rendered
over exact rationals extended with these special values so that claims about
zero-length edges can be settled faithfully. -/

/-- An `f64` value as relevant here: finite (kept exact as a rational), an
infinity, or NaN. -/
inductive RVal where
  | nan : RVal
  | pinf : RVal
  | ninf : RVal
  | fin : ℚ → RVal
deriving DecidableEq, Repr

/-- `f64` division restricted to finite operands: exact quotient for a
non-zero divisor (rounding is irrelevant to the claims settled with this),
`±∞`/NaN for a zero divisor per IEEE 754. -/
def rustDiv (a b : ℚ) : RVal :=
  if b ≠ 0 then .fin (a / b)
  else if 0 < a then .pinf
  else if a < 0 then .ninf
  else .nan

/-- `f64::clamp(0.0, 1.0)`: identity-with-saturation on finite values,
`+∞ ↦ 1`, `-∞ ↦ 0`, NaN ↦ NaN. -/
def rustClamp01 : RVal → RVal
  | .nan => .nan
  | .pinf => .fin 1
  | .ninf => .fin 0
  | .fin q => .fin (max 0 (min 1 q))

/-- The two-point branch of `sync_position_system` (`movement.rs`, lines
81–88) with the IEEE behaviour of `distance / length` explicit: `none` means
the computed progress is NaN, so the stored `Position` coordinates are NaN
(this happens exactly for `distance = 0` on a `length = 0` road). -/
def syncTwoPointRust (p0 p1 : Coord) (length distance : ℚ) : Option Coord :=
  match rustClamp01 (rustDiv distance length) with
  | .fin t => some (p0.1 + (p1.1 - p0.1) * t, p0.2 + (p1.2 - p0.2) * t)
  | _ => none

/-! ## Concrete fixtures

The two-edge scenario of spec §8 (`A = (n1 → n2, length 100)`,
`B = (n2 → n3, length 50)`) and a sample wire record, used to instantiate the
theorems below on concrete inputs. -/

/-- Edge `A` of the spec §8 edge-traversal scenario. -/
def edgeA : Road :=
  { id := 1, start := 1, endNode := 2, length := 100,
    geometry := [(0, 0), (100, 0)], highway_type := "residential" }

/-- Edge `B` of the spec §8 edge-traversal scenario. -/
def edgeB : Road :=
  { id := 2, start := 2, endNode := 3, length := 50,
    geometry := [(100, 0), (100, 50)], highway_type := "residential" }

/-- The two-edge graph of the spec §8 edge-traversal scenario, with
`out_edges` built exactly as the loader builds it. -/
def twoEdgeGraph : RoadGraph :=
  { nodes := fun _ => none,
    edges := [edgeA, edgeB],
    out_edges := buildOutEdges [edgeA, edgeB] }

/-- The sample wire record of spec §8 scenario 3. -/
def samplePos : VehiclePosition :=
  { vehicle_id := "car_7", latitude := 52.52, longitude := 13.40,
    speed := 12.5, timestamp := 1700000000 }

/-- A zero-length edge (`n1 → n2`, coincident endpoints). -/
def edgeZ : Road :=
  { id := 3, start := 1, endNode := 2, length := 0,
    geometry := [(5, 5), (5, 5)], highway_type := "service" }

/-- A graph whose first edge has length `0` and whose end node has the
outgoing edge `B`. -/
def zeroEdgeGraph : RoadGraph :=
  { nodes := fun _ => none,
    edges := [edgeZ, edgeB],
    out_edges := buildOutEdges [edgeZ, edgeB] }

/-! ## Theorems -/

/-- Membership in the accumulator-passing adjacency builder: an index is in
bucket `v` iff it was there already or it is `k + j` for a road `rest[j]`
starting at `v`. -/
theorem buildOutEdgesAux_mem (rest : List Road) :
    ∀ (k : Nat) (m : Int → List Nat) (v : Int) (i : Nat),
      i ∈ buildOutEdgesAux k rest m v ↔
        i ∈ m v ∨ ∃ j, ∃ h : j < rest.length, k + j = i ∧ rest[j].start = v := by
  induction rest with
  | nil =>
      intro k m v i
      simp [buildOutEdgesAux]
  | cons r t ih =>
      intro k m v i
      rw [buildOutEdgesAux, ih]
      constructor
      · rintro (hm | ⟨j, hj, hk, hs⟩)
        · by_cases hv : v = r.start
          · rw [if_pos hv, List.mem_append, List.mem_singleton] at hm
            rcases hm with hm | rfl
            · exact Or.inl hm
            · exact Or.inr ⟨0, by simp, by simp, by simp [hv]⟩
          · rw [if_neg hv] at hm
            exact Or.inl hm
        · exact Or.inr ⟨j + 1, by simpa using Nat.succ_lt_succ hj,
            by omega, by simpa using hs⟩
      · rintro (hm | ⟨j, hj, hk, hs⟩)
        · refine Or.inl ?_
          by_cases hv : v = r.start
          · rw [if_pos hv, List.mem_append]
            exact Or.inl hm
          · rwa [if_neg hv]
        · match j, hj, hk, hs with
          | 0, hj, hk, hs =>
              refine Or.inl ?_
              have hv : v = r.start := by simpa using hs.symm
              rw [if_pos hv, List.mem_append, List.mem_singleton]
              exact Or.inr (by omega)
          | j + 1, hj, hk, hs =>
              exact Or.inr ⟨j, by simpa using Nat.lt_of_succ_lt_succ hj,
                by omega, by simpa using hs⟩

/-- C5: For every graph produced by the loader, `out_edges` maps each node id
`v` to exactly the set of indices of edges whose start node id equals `v`:
for every edge index `i` and every node `v`,
`i ∈ out_edges[v] ⇔ edges[i].start = v`. -/
theorem C5_out_edges_characterization (roads : List Road) (v : Int) (i : Nat) :
    i ∈ buildOutEdges roads v ↔ ∃ h : i < roads.length, roads[i].start = v := by
  rw [buildOutEdges, buildOutEdgesAux_mem]
  constructor
  · rintro (hm | ⟨j, hj, hk, hs⟩)
    · simp at hm
    · exact ⟨by omega, by
        have : j = i := by omega
        subst this
        exact hs⟩
  · rintro ⟨h, hs⟩
    exact Or.inr ⟨i, h, by omega, hs⟩

/-- Unfolding equation for `movement_step` when the vehicle's edge exists. -/
theorem movement_step_some (graph : RoadGraph) (choice : Nat) (gp : GraphPosition)
    (s dt : ℚ) (road : Road) (hget : graph.edges.get? gp.edge_index = some road) :
    movement_step graph choice gp s dt =
      if gp.distance + s * dt ≥ road.length then
        if graph.out_edges road.endNode ≠ [] then
          { edge_index := (graph.out_edges road.endNode).getD
              (choice % (graph.out_edges road.endNode).length) gp.edge_index,
            distance := 0 }
        else { gp with distance := road.length }
      else { gp with distance := gp.distance + s * dt } := by
  unfold movement_step
  rw [hget]

/-- Any index the adjacency builder stores is the index of some edge of the
input list (well-formedness of `out_edges` for loader-built graphs). -/
theorem buildOutEdges_lt (roads : List Road) (v : Int) (i : Nat)
    (h : i ∈ buildOutEdges roads v) : i < roads.length := by
  rw [buildOutEdges, buildOutEdgesAux_mem] at h
  rcases h with h | ⟨j, hj, hk, _⟩
  · simp at h
  · omega

/-- C3: a vehicle whose state satisfies `0 ≤ distance ≤ edges[edge_index].length`
on a well-formed graph still satisfies it after `movement_system`'s step, for
any non-negative target speed and any non-negative `dt`; and
`spawn_vehicles_on_graph` establishes the invariant initially by placing every
spawned vehicle at `distance = 0` on an existing edge. -/
theorem C3_distance_invariant (graph : RoadGraph) (choice : Nat)
    (gp : GraphPosition) (target_speed dt : ℚ)
    (hwf : WellFormed graph) (hinv : PosInvariant graph gp)
    (hs : 0 ≤ target_speed) (hdt : 0 ≤ dt) :
    PosInvariant graph (movement_step graph choice gp target_speed dt) ∧
    (∀ edge_idx gp', spawn_vehicle graph.edges edge_idx = some gp' →
      gp'.distance = 0 ∧ PosInvariant graph gp') := by
  obtain ⟨hlen, hout⟩ := hwf
  obtain ⟨road, hget, h0, hle⟩ := hinv
  constructor
  · rw [movement_step_some graph choice gp target_speed dt road hget]
    have hd0 : 0 ≤ gp.distance + target_speed * dt :=
      add_nonneg h0 (mul_nonneg hs hdt)
    by_cases hge : gp.distance + target_speed * dt ≥ road.length
    · rw [if_pos hge]
      by_cases hne : graph.out_edges road.endNode ≠ []
      · rw [if_pos hne]
        have hlt : choice % (graph.out_edges road.endNode).length <
            (graph.out_edges road.endNode).length :=
          Nat.mod_lt _ (List.length_pos.mpr hne)
        have hmem : (graph.out_edges road.endNode).getD
            (choice % (graph.out_edges road.endNode).length) gp.edge_index ∈
            graph.out_edges road.endNode := by
          rw [List.getD_eq_getElem _ gp.edge_index hlt]
          exact List.getElem_mem hlt
        have hbound := hout road.endNode _ hmem
        refine ⟨graph.edges[(graph.out_edges road.endNode).getD
          (choice % (graph.out_edges road.endNode).length) gp.edge_index], ?_, le_refl 0, ?_⟩
        · rw [List.get?_eq_getElem?]
          exact List.getElem?_eq_getElem hbound
        · exact hlen _ (List.getElem_mem hbound)
      · rw [if_neg hne]
        exact ⟨road, hget, hlen road (List.get?_mem hget), le_refl road.length⟩
    · rw [if_neg hge]
      exact ⟨road, hget, hd0, (lt_of_not_ge hge).le⟩
  · intro edge_idx gp' hspawn
    unfold spawn_vehicle at hspawn
    cases hg : graph.edges.get? edge_idx with
    | none =>
        rw [hg] at hspawn
        simp at hspawn
    | some road' =>
        rw [hg] at hspawn
        have hspawn' : (if road'.geometry.isEmpty then none
            else some { edge_index := edge_idx, distance := 0 : GraphPosition }) =
            some gp' := hspawn
        by_cases hemp : road'.geometry.isEmpty
        · rw [if_pos hemp] at hspawn'
          exact absurd hspawn' (by simp)
        · rw [if_neg hemp] at hspawn'
          have hgp := Option.some.inj hspawn'
          subst hgp
          exact ⟨rfl, road', hg, le_refl 0, hlen road' (List.get?_mem hg)⟩

/-- Witness for C3 on the two-edge scenario graph: the hypotheses hold at
the concrete state `(edge 0, distance 0)` with speed `25` and `dt = 1`, and
the theorem applies. -/
theorem C3_distance_invariant_witness :
    WellFormed twoEdgeGraph ∧
    PosInvariant twoEdgeGraph { edge_index := 0, distance := 0 } ∧
    (PosInvariant twoEdgeGraph
        (movement_step twoEdgeGraph 0 { edge_index := 0, distance := 0 } 25 1) ∧
      (∀ edge_idx gp', spawn_vehicle twoEdgeGraph.edges edge_idx = some gp' →
        gp'.distance = 0 ∧ PosInvariant twoEdgeGraph gp')) := by
  have hwf : WellFormed twoEdgeGraph := by
    constructor
    · decide
    · intro v i h
      exact buildOutEdges_lt [edgeA, edgeB] v i h
  have hinv : PosInvariant twoEdgeGraph { edge_index := 0, distance := 0 } :=
    ⟨edgeA, rfl, le_refl 0, by norm_num [edgeA]⟩
  exact ⟨hwf, hinv,
    C3_distance_invariant twoEdgeGraph 0 { edge_index := 0, distance := 0 } 25 1
      hwf hinv (by norm_num) (by norm_num)⟩

/-- C4: when a vehicle's accumulated distance reaches or exceeds its edge's
length, `movement_system` either jumps to one of the end node's outgoing
edges (`next_edges[random % len]`, an element of that list) with
`distance = 0` and no carry-over, or — when the outgoing list is empty or
absent — clamps `distance` to the edge length; and in the two-edge scenario
(`A` length 100 → `B` length 50, speed 25, `dt = 1`) the states after ticks
1–5 are `25, 50, 75`, transition to `B` with `0`, then `25`. -/
theorem C4_edge_transition :
    (∀ (graph : RoadGraph) (choice : Nat) (gp : GraphPosition) (s dt : ℚ)
      (road : Road),
      graph.edges.get? gp.edge_index = some road →
      road.length ≤ gp.distance + s * dt →
      (graph.out_edges road.endNode ≠ [] →
        movement_step graph choice gp s dt =
          { edge_index := (graph.out_edges road.endNode).getD
              (choice % (graph.out_edges road.endNode).length) gp.edge_index,
            distance := 0 } ∧
        (graph.out_edges road.endNode).getD
            (choice % (graph.out_edges road.endNode).length) gp.edge_index ∈
          graph.out_edges road.endNode) ∧
      (graph.out_edges road.endNode = [] →
        movement_step graph choice gp s dt =
          { edge_index := gp.edge_index, distance := road.length })) ∧
    (movement_step twoEdgeGraph 0 { edge_index := 0, distance := 0 } 25 1 =
        { edge_index := 0, distance := 25 } ∧
      movement_step twoEdgeGraph 0 { edge_index := 0, distance := 25 } 25 1 =
        { edge_index := 0, distance := 50 } ∧
      movement_step twoEdgeGraph 0 { edge_index := 0, distance := 50 } 25 1 =
        { edge_index := 0, distance := 75 } ∧
      movement_step twoEdgeGraph 0 { edge_index := 0, distance := 75 } 25 1 =
        { edge_index := 1, distance := 0 } ∧
      movement_step twoEdgeGraph 0 { edge_index := 1, distance := 0 } 25 1 =
        { edge_index := 1, distance := 25 }) := by
  constructor
  · intro graph choice gp s dt road hget hge
    have hstep := movement_step_some graph choice gp s dt road hget
    constructor
    · intro hne
      rw [if_pos hge, if_pos hne] at hstep
      refine ⟨hstep, ?_⟩
      have hlt : choice % (graph.out_edges road.endNode).length <
          (graph.out_edges road.endNode).length :=
        Nat.mod_lt _ (List.length_pos.mpr hne)
      rw [List.getD_eq_getElem _ gp.edge_index hlt]
      exact List.getElem_mem hlt
    · intro hemp
      rw [if_pos hge, if_neg (not_not_intro hemp)] at hstep
      exact hstep
  · refine ⟨?_, ?_, ?_, ?_, ?_⟩
    · rw [movement_step_some twoEdgeGraph 0 { edge_index := 0, distance := 0 }
        25 1 edgeA rfl, if_neg (by norm_num [edgeA])]
      norm_num [GraphPosition.mk.injEq]
    · rw [movement_step_some twoEdgeGraph 0 { edge_index := 0, distance := 25 }
        25 1 edgeA rfl, if_neg (by norm_num [edgeA])]
      norm_num [GraphPosition.mk.injEq]
    · rw [movement_step_some twoEdgeGraph 0 { edge_index := 0, distance := 50 }
        25 1 edgeA rfl, if_neg (by norm_num [edgeA])]
      norm_num [GraphPosition.mk.injEq]
    · rw [movement_step_some twoEdgeGraph 0 { edge_index := 0, distance := 75 }
        25 1 edgeA rfl, if_pos (by norm_num [edgeA]), if_pos (by decide)]
      decide
    · rw [movement_step_some twoEdgeGraph 0 { edge_index := 1, distance := 0 }
        25 1 edgeB rfl, if_neg (by norm_num [edgeB])]
      norm_num [GraphPosition.mk.injEq]

/-- Witness for C4 at tick 4 of the scenario: the hypotheses hold concretely
(`distance 75 + 25·1` reaches edge `A`'s length `100`, and node `n2` has the
outgoing edge list `[1]`), and the transition lands on edge `B` at
`distance = 0`. -/
theorem C4_edge_transition_witness :
    edgeA.length ≤ (75 : ℚ) + 25 * 1 ∧
    twoEdgeGraph.out_edges edgeA.endNode ≠ [] ∧
    movement_step twoEdgeGraph 0 { edge_index := 0, distance := 75 } 25 1 =
      { edge_index := 1, distance := 0 } := by
  refine ⟨by norm_num [edgeA], by decide, ?_⟩
  have h := (C4_edge_transition.1 twoEdgeGraph 0
    { edge_index := 0, distance := 75 } 25 1 edgeA
    (by decide) (by norm_num [edgeA])).1 (by decide)
  rw [h.1]
  decide

/-- C6: `BatchWriter::add` appends the record to the buffer and flushes
exactly when the buffer length has reached `batch_size`: below the threshold
the buffer grows and the store is untouched; at the threshold a successful
transaction inserts every buffered row (in buffer order, one transaction)
and clears the buffer, while a failed transaction returns the error and
leaves every buffered record — the one just added included — in the buffer
for retry. -/
theorem C6_batch_add (batch_size : Nat) (txOk : Bool) (st : BatchState)
    (position : VehiclePosition) :
    (st.buffer.length + 1 < batch_size →
      add batch_size txOk st position =
        ({ buffer := st.buffer ++ [position], db := st.db }, true)) ∧
    (batch_size ≤ st.buffer.length + 1 → txOk = true →
      add batch_size txOk st position =
        ({ buffer := [], db := st.db ++ (st.buffer ++ [position]) }, true)) ∧
    (batch_size ≤ st.buffer.length + 1 → txOk = false →
      add batch_size txOk st position =
        ({ buffer := st.buffer ++ [position], db := st.db }, false)) := by
  refine ⟨?_, ?_, ?_⟩
  · intro hlt
    unfold add
    rw [if_neg (by simp; omega)]
  · intro hge htx
    subst htx
    unfold add flush_locked
    rw [if_pos (by simp; omega), if_neg (by simp)]
    simp
  · intro hge htx
    subst htx
    unfold add flush_locked
    rw [if_pos (by simp; omega), if_neg (by simp)]
    simp

/-- Witness for C6: with `batch_size = 2`, adding a second record triggers
the flush; on a committing transaction both rows land in the store in order
and the buffer is cleared. -/
theorem C6_batch_add_witness :
    2 ≤ [samplePos].length + 1 ∧
    add 2 true { buffer := [samplePos], db := [] } samplePos =
      ({ buffer := [], db := [samplePos, samplePos] }, true) := by
  refine ⟨by norm_num, ?_⟩
  have h := (C6_batch_add 2 true { buffer := [samplePos], db := [] }
    samplePos).2.1 (by norm_num) rfl
  rw [h]
  rfl

/-- C10: `BatchWriter::flush` is idempotent — flushing an empty buffer does
not touch the store and returns `Ok`, and after any successful flush the
buffer is empty, so an immediately repeated flush is a no-op that succeeds
and leaves the buffer empty. -/
theorem C10_flush_idempotent (txOk txOk' : Bool) (st : BatchState) :
    (st.buffer = [] → flush txOk st = (st, true)) ∧
    ((flush txOk st).2 = true →
      (flush txOk st).1.buffer = [] ∧
      flush txOk' (flush txOk st).1 = ((flush txOk st).1, true)) := by
  constructor
  · intro h
    simp [flush, flush_locked, h]
  · intro h
    by_cases hemp : st.buffer.isEmpty
    · have he : st.buffer = [] := List.isEmpty_iff.mp hemp
      exact ⟨by simp [flush, flush_locked, hemp, he],
        by simp [flush, flush_locked, hemp, he]⟩
    · cases txOk with
      | false =>
          exfalso
          simp [flush, flush_locked, hemp] at h
      | true =>
          exact ⟨by simp [flush, flush_locked, hemp],
            by simp [flush, flush_locked, hemp]⟩

/-- Witness for C10: a successful flush of a one-record buffer leaves the
buffer empty, and a second flush (even with a failing transaction oracle) is
a successful no-op. -/
theorem C10_flush_idempotent_witness :
    (flush true { buffer := [samplePos], db := [] }).2 = true ∧
    (flush true { buffer := [samplePos], db := [] }).1.buffer = [] ∧
    flush false (flush true { buffer := [samplePos], db := [] }).1 =
      ((flush true { buffer := [samplePos], db := [] }).1, true) := by
  have h2 := (C10_flush_idempotent true false
    { buffer := [samplePos], db := [] }).2 rfl
  exact ⟨rfl, h2.1, h2.2⟩

/-- Counterexample to C1: on a record that decodes successfully but whose
`process()` fails (`process _ = false`), the consumer still commits the
offset (C1 says the commit is withheld); and on a record whose payload fails
to decode, the offset is NOT committed (C1 says the poison message is
committed). -/
theorem C1_counterexample :
    (consumeRecord (some [0]) (fun _ => some samplePos)
        (fun _ => false)).committed = true ∧
    (consumeRecord (some [0]) (fun _ => some samplePos)
        (fun _ => false)).processed = some false ∧
    (consumeRecord (some [0]) (fun _ => none) (fun _ => true)).committed = false :=
  ⟨rfl, rfl, rfl⟩

/-- C1 as amended: for every delivered record with a payload, the offset is
committed exactly when the payload decodes successfully — on decode success
`process()` runs and the offset is committed regardless of its outcome (an
error is only logged), and on decode failure the record is skipped with no
processing and NO offset commit. -/
theorem C1_commit_policy (bytes : List Nat)
    (decode : List Nat → Option VehiclePosition)
    (process : VehiclePosition → Bool) :
    ((consumeRecord (some bytes) decode process).committed = true ↔
      (decode bytes).isSome = true) ∧
    (∀ pos, decode bytes = some pos →
      consumeRecord (some bytes) decode process =
        { processed := some (process pos), committed := true }) ∧
    (decode bytes = none →
      consumeRecord (some bytes) decode process =
        { processed := none, committed := false }) := by
  refine ⟨?_, ?_, ?_⟩
  · cases h : decode bytes <;> simp [consumeRecord, h]
  · intro pos h
    simp [consumeRecord, h]
  · intro h
    simp [consumeRecord, h]

/-- Witness for C1: concrete decoders exhibiting both branches of the
amended commit policy. -/
theorem C1_commit_policy_witness :
    ((fun _ : List Nat => some samplePos) [0] = some samplePos) ∧
    consumeRecord (some [0]) (fun _ => some samplePos) (fun _ => false) =
      { processed := some false, committed := true } ∧
    ((fun _ : List Nat => (none : Option VehiclePosition)) [0] = none) ∧
    consumeRecord (some [0]) (fun _ => none) (fun _ => false) =
      { processed := none, committed := false } := by
  refine ⟨rfl, ?_, rfl, ?_⟩
  · exact (C1_commit_policy [0] (fun _ => some samplePos)
      (fun _ => false)).2.1 samplePos rfl
  · exact (C1_commit_policy [0] (fun _ => none) (fun _ => false)).2.2 rfl

/-- Counterexample to C2: at the emitting tick, the system publishes a
single batched record — for a two-vehicle query the one message carries both
vehicles — to topic `traffic.updates` (not `raw-telemetry`) with key
`berlin_center` (not the vehicle's id). -/
theorem C2_counterexample :
    (broadcast_system 4 [("car_0", ((1 : ℝ), (2 : ℝ)), ((0 : ℝ), (0 : ℝ))),
        ("car_1", ((3 : ℝ), (4 : ℝ)), ((0 : ℝ), (0 : ℝ)))]).2.map
        (fun m => (m.topic, m.key, m.message.vehicles.length)) =
      some ("traffic.updates", "berlin_center", 2) ∧
    "traffic.updates" ≠ "raw-telemetry" ∧
    "berlin_center" ≠ "car_0" ∧ "berlin_center" ≠ "car_1" :=
  ⟨rfl, by decide, by decide, by decide⟩

/-- C2 as amended: on every 5th tick (`counter` reaching 5 resets it),
`broadcast_system` builds one `VehicleUpdate` per vehicle
(`latitude = pos.y`, `longitude = pos.x`, `speed = |vel|`, `heading = 0`)
and publishes them all in ONE `TrafficUpdate` record to topic
`traffic.updates` with key `berlin_center`; on other ticks, and when there
are no vehicles, nothing is published. -/
theorem C2_broadcast_behavior (counter : Nat)
    (query : List (String × (ℝ × ℝ) × (ℝ × ℝ))) :
    (counter + 1 < 5 → broadcast_system counter query = (counter + 1, none)) ∧
    (¬ counter + 1 < 5 → query = [] → broadcast_system counter query = (0, none)) ∧
    (¬ counter + 1 < 5 → query ≠ [] →
      broadcast_system counter query =
        (0, some
          { topic := "traffic.updates", key := "berlin_center",
            message :=
              { vehicles := query.map (fun q =>
                  { vehicle_id := q.1, latitude := q.2.1.2,
                    longitude := q.2.1.1, speed := vecLength q.2.2,
                    heading := 0 }),
                timestamp := 0 } })) := by
  refine ⟨?_, ?_, ?_⟩
  · intro h
    unfold broadcast_system
    rw [if_pos h]
  · intro h hq
    subst hq
    unfold broadcast_system
    rw [if_neg h]
    rfl
  · intro h hq
    unfold broadcast_system
    rw [if_neg h, if_neg (by simp [hq])]

/-- Witness for C2 on a one-vehicle query at the emitting tick. -/
theorem C2_broadcast_behavior_witness :
    ¬ (4 : Nat) + 1 < 5 ∧
    ([("car_0", ((1 : ℝ), 2), ((0 : ℝ), 0))] :
      List (String × (ℝ × ℝ) × (ℝ × ℝ))) ≠ [] ∧
    broadcast_system 4 [("car_0", ((1 : ℝ), 2), ((0 : ℝ), 0))] =
      (0, some
        { topic := "traffic.updates", key := "berlin_center",
          message :=
            { vehicles :=
                [{ vehicle_id := "car_0", latitude := 2, longitude := 1,
                   speed := vecLength (0, 0), heading := 0 }],
              timestamp := 0 } }) := by
  refine ⟨by omega, by simp, ?_⟩
  have h := (C2_broadcast_behavior 4
    [("car_0", ((1 : ℝ), 2), ((0 : ℝ), 0))]).2.2 (by omega) (by simp)
  rw [h]
  rfl

/-- C9: `/map` returns one `{id, geometry}` entry per drivable edge of the
graph, in edge order, each carrying the edge's way id (the `i64 → u64` cast
is the identity on the OSM id range) and its geometry as `(lon, lat)` pairs
in order; the loader emits only drivable edges, so for loader-built graphs
there is one entry for EVERY edge; and an empty graph yields `[]`. -/
theorem C9_map_endpoint (edges : List Road) (nodeTable : Int → Option Node)
    (dist : Coord → Coord → ℚ) (ways : List OsmWay) :
    get_map (map_points edges) =
      (edges.filter (fun r => is_drivable r.highway_type)).map
        (fun r =>
          { id := u64OfI64 r.id,
            geometry := r.geometry.map (fun p => (p.1, p.2)) }) ∧
    (∀ r ∈ loadEdges nodeTable dist ways, is_drivable r.highway_type = true) ∧
    (∀ edges' : List Road, (∀ r ∈ edges', is_drivable r.highway_type = true) →
      get_map (map_points edges') =
        edges'.map (fun r =>
          { id := u64OfI64 r.id,
            geometry := r.geometry.map (fun p => (p.1, p.2)) })) ∧
    (∀ i : Int, 0 ≤ i → i < 2 ^ 64 → (u64OfI64 i : Int) = i) ∧
    get_map (map_points []) = [] := by
  refine ⟨rfl, ?_, ?_, ?_, rfl⟩
  · intro r hr
    simp only [loadEdges, List.mem_flatten, List.mem_map] at hr
    obtain ⟨l, ⟨w, hw, hl⟩, hrl⟩ := hr
    subst hl
    unfold segmentsOfWay at hrl
    by_cases hd : is_drivable (wayHighway w)
    · rw [if_pos hd] at hrl
      rw [List.mem_filterMap] at hrl
      obtain ⟨p, _, hmatch⟩ := hrl
      cases h1 : nodeTable p.1 <;> cases h2 : nodeTable p.2 <;>
        rw [h1, h2] at hmatch <;> simp only [Option.some.injEq] at hmatch
      · exact absurd hmatch (by simp)
      · exact absurd hmatch (by simp)
      · exact absurd hmatch (by simp)
      · rw [← hmatch]
        exact hd
    · rw [if_neg hd] at hrl
      exact absurd hrl (by simp)
  · intro edges' hall
    have h1 : map_points edges' =
        (edges'.filter (fun r => is_drivable r.highway_type)).map
          (fun r =>
            ({ id := u64OfI64 r.id,
               geometry := r.geometry.map (fun p => (p.1, p.2)) } : ApiRoad)) := rfl
    show map_points edges' = _
    rw [h1, List.filter_eq_self.mpr hall]
  · intro i h0 hlt
    show ((i % (2 ^ 64 : Int)).toNat : Int) = i
    rw [Int.emod_eq_of_lt h0 hlt, Int.toNat_of_nonneg h0]

/-- Witness for C9: a one-edge all-drivable graph produces exactly one DTO
entry, and the id cast is the identity at `1`. -/
theorem C9_map_endpoint_witness :
    (∀ r ∈ [edgeA], is_drivable r.highway_type = true) ∧
    get_map (map_points [edgeA]) =
      [{ id := u64OfI64 edgeA.id,
         geometry := edgeA.geometry.map (fun p => (p.1, p.2)) }] ∧
    (0 : Int) ≤ 1 ∧ (1 : Int) < 2 ^ 64 ∧ (u64OfI64 1 : Int) = 1 := by
  have h := C9_map_endpoint [edgeA] (fun _ => none) (fun _ _ => 0) []
  refine ⟨by decide, ?_, by norm_num, by norm_num,
    h.2.2.2.1 1 (by norm_num) (by norm_num)⟩
  have h3 := h.2.2.1 [edgeA] (by decide)
  rw [h3]
  rfl

/-- Counterexample to C8: on a zero-length edge with distinct geometry
endpoints and `distance = 5 ≥ 0`, the two-point branch of
`sync_position_system` computes `progress = clamp(5 / 0.0, 0, 1) =
clamp(+∞, 0, 1) = 1` and stores `geometry[1] = (1, 0)`, not
`geometry[0] = (0, 0)` as the claim states. -/
theorem C8_counterexample :
    syncTwoPointRust (0, 0) (1, 0) 0 5 = some (1, 0) ∧
    ((1 : ℚ), (0 : ℚ)) ≠ ((0 : ℚ), (0 : ℚ)) := by
  constructor
  · have h1 : rustDiv 5 0 = RVal.pinf := by
      unfold rustDiv
      rw [if_neg (not_not_intro rfl), if_pos (by norm_num)]
    unfold syncTwoPointRust
    rw [h1]
    show some ((0 : ℚ) + (1 - 0) * 1, (0 : ℚ) + (0 - 0) * 1) = some (1, 0)
    norm_num
  · decide

/-- C8 as amended: on a zero-length edge the two-point branch of
`sync_position_system` yields `geometry[1]` for every positive distance
(progress `+∞` clamps to `1`; this coincides with `geometry[0]` only when
the two geometry points are equal) and a NaN position at distance `0`;
`interpolate_along_polyline` — the branch taken for geometries of ≥ 3
points — does return `geometry[0]` whenever the total geometric length is
`0`; and `movement_system` performs an edge transition on a zero-length edge
for any distance ≥ 0 (hence for any positive distance) whenever the end node
has outgoing edges. -/
theorem C8_zero_length_edge (p0 p1 : Coord) (d : ℚ) (graph : RoadGraph)
    (choice : Nat) (gp : GraphPosition) (s dt : ℚ) (road : Road) :
    (0 < d → syncTwoPointRust p0 p1 0 d = some p1) ∧
    syncTwoPointRust p0 p1 0 0 = none ∧
    (∀ (geometry : List (ℝ × ℝ)) (progress : ℝ),
      (segLengths geometry).sum = 0 →
      interpolate_along_polyline geometry progress = geometry.headD (0, 0)) ∧
    (graph.edges.get? gp.edge_index = some road → road.length = 0 →
      0 ≤ gp.distance → 0 ≤ s → 0 ≤ dt →
      graph.out_edges road.endNode ≠ [] →
      movement_step graph choice gp s dt =
        { edge_index := (graph.out_edges road.endNode).getD
            (choice % (graph.out_edges road.endNode).length) gp.edge_index,
          distance := 0 }) := by
  refine ⟨?_, ?_, ?_, ?_⟩
  · intro hd
    have h1 : rustDiv d 0 = RVal.pinf := by
      unfold rustDiv
      rw [if_neg (not_not_intro rfl), if_pos hd]
    unfold syncTwoPointRust
    rw [h1]
    show some (p0.1 + (p1.1 - p0.1) * 1, p0.2 + (p1.2 - p0.2) * 1) = some p1
    have e1 : p0.1 + (p1.1 - p0.1) * 1 = p1.1 := by ring
    have e2 : p0.2 + (p1.2 - p0.2) * 1 = p1.2 := by ring
    rw [e1, e2]
  · have h1 : rustDiv 0 0 = RVal.nan := by
      unfold rustDiv
      rw [if_neg (not_not_intro rfl), if_neg (by norm_num), if_neg (by norm_num)]
    unfold syncTwoPointRust
    rw [h1]
    rfl
  · intro geometry progress htot
    simp only [interpolate_along_polyline]
    by_cases hlen : geometry.length < 2
    · rw [if_pos hlen]
    · rw [if_neg hlen, if_pos htot]
  · intro hget hlen0 hd0 hs hdt hne
    rw [movement_step_some graph choice gp s dt road hget,
      if_pos (by rw [hlen0]; exact add_nonneg hd0 (mul_nonneg hs hdt)),
      if_pos hne]

/-- Witness for C8 (amended): the positive-distance two-point case lands on
`geometry[1]`; a coincident-endpoint polyline has total length 0 and
interpolates to `geometry[0]`; and on the concrete zero-length-edge graph a
vehicle at distance `5` transitions to edge `1` with the leftover
discarded. -/
theorem C8_zero_length_edge_witness :
    (0 : ℚ) < 5 ∧
    syncTwoPointRust (0, 0) (1, 0) 0 5 = some (1, 0) ∧
    (segLengths [((2 : ℝ), (3 : ℝ)), (2, 3)]).sum = 0 ∧
    interpolate_along_polyline [((2 : ℝ), (3 : ℝ)), (2, 3)] (1 / 2) =
      ([((2 : ℝ), (3 : ℝ)), (2, 3)]).headD (0, 0) ∧
    zeroEdgeGraph.edges.get? 0 = some edgeZ ∧
    edgeZ.length = 0 ∧
    zeroEdgeGraph.out_edges edgeZ.endNode ≠ [] ∧
    movement_step zeroEdgeGraph 0 { edge_index := 0, distance := 5 } 1 1 =
      { edge_index := 1, distance := 0 } := by
  have htot : (segLengths [((2 : ℝ), (3 : ℝ)), (2, 3)]).sum = 0 := by
    simp [segLengths]
  have h := C8_zero_length_edge (0, 0) (1, 0) 5 zeroEdgeGraph 0
    { edge_index := 0, distance := 5 } 1 1 edgeZ
  refine ⟨by norm_num, h.1 (by norm_num), htot,
    h.2.2.1 [((2 : ℝ), (3 : ℝ)), (2, 3)] (1 / 2) htot,
    by decide, rfl, by decide, ?_⟩
  have h4 := h.2.2.2 (by decide) rfl (by norm_num) (by norm_num)
    (by norm_num) (by decide)
  rw [h4]
  decide

/-- A polyline of `n` points has `n - 1` segment lengths. -/
theorem segLengths_length : ∀ l : List (ℝ × ℝ), (segLengths l).length = l.length - 1
  | [] => rfl
  | [_] => rfl
  | _ :: q :: rest => by
      show (segLengths (q :: rest)).length + 1 = (rest.length + 2) - 1
      rw [segLengths_length (q :: rest)]
      simp

/-- The segment-selection loop of `interpolate_along_polyline`: if the
running accumulation first meets the target at segment `i` and that segment
has positive length, the loop interpolates linearly inside segment `i`. -/
theorem interpGo_eq (i : Nat) :
    ∀ (segs : List ℝ) (pts : List (ℝ × ℝ)) (target accum : ℝ),
      i < segs.length → segs.length + 1 ≤ pts.length →
      (∀ j < i, accum + (segs.take (j + 1)).sum < target) →
      target ≤ accum + (segs.take (i + 1)).sum →
      0 < segs.getD i 0 →
      interpGo segs pts target accum =
        ((pts.getD i (0, 0)).1 +
            ((pts.getD (i + 1) (0, 0)).1 - (pts.getD i (0, 0)).1) *
            ((target - (accum + (segs.take i).sum)) / segs.getD i 0),
         (pts.getD i (0, 0)).2 +
            ((pts.getD (i + 1) (0, 0)).2 - (pts.getD i (0, 0)).2) *
            ((target - (accum + (segs.take i).sum)) / segs.getD i 0)) := by
  induction i with
  | zero =>
      intro segs pts target accum hi hlen hbefore hstop hseg
      match segs, pts, hi, hlen with
      | s :: srest, p :: q :: rest, hi, hlen =>
          have hs : target ≤ accum + s := by
            simpa using hstop
          have hs0 : (0 : ℝ) < s := by
            simpa using hseg
          show interpGo (s :: srest) (p :: q :: rest) target accum = _
          unfold interpGo
          rw [if_pos (by linarith), if_pos hs0]
          simp
  | succ i ih =>
      intro segs pts target accum hi hlen hbefore hstop hseg
      match segs, pts, hi, hlen with
      | s :: srest, p :: q :: rest, hi, hlen =>
          have hlt : accum + s < target := by
            simpa using hbefore 0 (Nat.succ_pos i)
          show interpGo (s :: srest) (p :: q :: rest) target accum = _
          unfold interpGo
          rw [if_neg (by linarith)]
          have hrec := ih srest (q :: rest) target (accum + s)
            (by simpa using Nat.lt_of_succ_lt_succ hi)
            (by simpa using hlen)
            (by
              intro j hj
              have h := hbefore (j + 1) (Nat.succ_lt_succ hj)
              rw [List.take_succ_cons, List.sum_cons] at h
              linarith)
            (by
              rw [List.take_succ_cons, List.sum_cons] at hstop
              linarith)
            (by simpa using hseg)
          simp only [List.getD_cons_succ, List.take_succ_cons, List.sum_cons,
            add_assoc] at hrec ⊢
          exact hrec

/-- C7: for a geometry of at least 2 points, `interpolate_along_polyline`
computes the per-segment lengths, selects the sub-segment whose accumulated
length first reaches `progress * total_length`, and linearly interpolates
inside that segment; and for geometries of ≥ 3 points `sync_position_system`
computes its position exactly as `interpolate_along_polyline` applied to the
clamped progress `distance / length`. -/
theorem C7_polyline_interpolation (geometry : List (ℝ × ℝ)) (progress : ℝ)
    (i : Nat) (h2 : 2 ≤ geometry.length)
    (htot : (segLengths geometry).sum ≠ 0)
    (hi : i < (segLengths geometry).length)
    (hseg : 0 < (segLengths geometry).getD i 0)
    (hbefore : ∀ j < i, ((segLengths geometry).take (j + 1)).sum <
      progress * (segLengths geometry).sum)
    (hstop : progress * (segLengths geometry).sum ≤
      ((segLengths geometry).take (i + 1)).sum) :
    interpolate_along_polyline geometry progress =
      ((geometry.getD i (0, 0)).1 +
          ((geometry.getD (i + 1) (0, 0)).1 - (geometry.getD i (0, 0)).1) *
          ((progress * (segLengths geometry).sum -
            ((segLengths geometry).take i).sum) / (segLengths geometry).getD i 0),
       (geometry.getD i (0, 0)).2 +
          ((geometry.getD (i + 1) (0, 0)).2 - (geometry.getD i (0, 0)).2) *
          ((progress * (segLengths geometry).sum -
            ((segLengths geometry).take i).sum) / (segLengths geometry).getD i 0)) ∧
    (∀ (geom : List (ℝ × ℝ)) (length distance : ℝ), 3 ≤ geom.length →
      sync_position geom length distance =
        some (interpolate_along_polyline geom
          (max 0 (min 1 (distance / length))))) := by
  constructor
  · simp only [interpolate_along_polyline]
    rw [if_neg (by omega), if_neg htot]
    have hlen : (segLengths geometry).length + 1 ≤ geometry.length := by
      rw [segLengths_length geometry]
      omega
    have h := interpGo_eq i (segLengths geometry) geometry
      (progress * (segLengths geometry).sum) 0 hi hlen
      (by
        intro j hj
        rw [zero_add]
        exact hbefore j hj)
      (by
        rw [zero_add]
        exact hstop)
      hseg
    rw [h, zero_add]
  · intro geom length distance h3
    match geom, h3 with
    | p :: q :: r :: rest, h3 =>
        show sync_position (p :: q :: r :: rest) length distance = _
        unfold sync_position
        rw [if_pos (by simp)]
        rfl

/-- Witness for C7 on the spec §8 polyline scenario: geometry
`[(0,0), (3,0), (3,4)]` has segment lengths `[3, 4]` and total `7`; progress
`1/2` targets arc distance `3.5`, which falls in segment `1` at local
progress `1/8`, giving position `(3, 0.5)`; `sync_position_system` at
`distance = 3.5` on that road (`length = 7`) stores the same point. -/
theorem C7_polyline_interpolation_witness :
    interpolate_along_polyline [((0 : ℝ), (0 : ℝ)), (3, 0), (3, 4)] (1 / 2) =
      (3, 1 / 2) ∧
    sync_position [((0 : ℝ), (0 : ℝ)), (3, 0), (3, 4)] 7 (7 / 2) =
      some (3, 1 / 2) := by
  have hsegs : segLengths [((0 : ℝ), (0 : ℝ)), (3, 0), (3, 4)] = [3, 4] := by
    have e1 : ((3 : ℝ) - 0) ^ 2 + ((0 : ℝ) - 0) ^ 2 = 3 ^ 2 := by norm_num
    have e2 : ((3 : ℝ) - 3) ^ 2 + ((4 : ℝ) - 0) ^ 2 = 4 ^ 2 := by norm_num
    simp only [segLengths]
    rw [e1, e2, Real.sqrt_sq (by norm_num : (0 : ℝ) ≤ 3),
      Real.sqrt_sq (by norm_num : (0 : ℝ) ≤ 4)]
  have h := C7_polyline_interpolation [((0 : ℝ), (0 : ℝ)), (3, 0), (3, 4)]
    (1 / 2) 1
    (by norm_num)
    (by rw [hsegs]; norm_num)
    (by rw [hsegs]; norm_num)
    (by rw [hsegs]; norm_num)
    (by
      intro j hj
      have hj0 : j = 0 := by omega
      subst hj0
      rw [hsegs]
      norm_num)
    (by rw [hsegs]; norm_num)
  have hmain : interpolate_along_polyline
      [((0 : ℝ), (0 : ℝ)), (3, 0), (3, 4)] (1 / 2) = (3, 1 / 2) := by
    rw [h.1, hsegs]
    norm_num [Prod.ext_iff]
  refine ⟨hmain, ?_⟩
  have hsync := h.2 [((0 : ℝ), (0 : ℝ)), (3, 0), (3, 4)] 7 (7 / 2) (by norm_num)
  rw [hsync]
  have hp : max 0 (min 1 ((7 : ℝ) / 2 / 7)) = 1 / 2 := by norm_num
  rw [hp, hmain]

end Traffic
